import Mathlib

/-!
Verification of the arrabiata witness-building environment
(`src/arrabiata/src/witness.rs`) against its specification.

Machine values (`BigUint` in the source) are modelled as `Nat`; `Vec` and
fixed-size arrays are modelled as `List Nat`.  Aborts (`assert!`,
`unimplemented!`) that the spec's claims depend on are modelled as
`Except RuntimeError`.  Indexing panics that no claim depends on are
modelled by `List.set`'s out-of-range no-op; the theorems stay inside the
in-range domain, where the two semantics agree.
-/

namespace Arrabiata

/-- Modelled from the spec: the runtime failure kinds of the witness
builder — capacity errors from `allocate`, type-mismatch errors on the
write paths, and assertion failures from the gadget primitives (all
unconditional aborts in the source). -/
inductive RuntimeError where
  | capacityReached
  | typeMismatch
  | assertionFailed
  | arithmeticOverflow
  deriving DecidableEq, Repr

/-- Modelled from the spec: the column identifier type of
`arrabiata/src/columns.rs` (not under `src/`), as used by `witness.rs`:
private-witness columns `X(i)` and public-input columns
`PublicInput(i)`. -/
inductive Column where
  | X : Nat → Column
  | PublicInput : Nat → Column
  deriving DecidableEq, Repr

/-- Modelled from the spec: the instruction type of
`arrabiata/src/interpreter.rs` (not under `src/`), with exactly the
variants matched by `Env::fetch_next_instruction` in `witness.rs`: the
initial decomposition, the 16-bit chunk decomposition carrying a chunk
index, and the Poseidon permutation round carrying a round index. -/
inductive Instruction where
  | SixteenBitsDecomposition : Instruction
  | BitDecompositionFrom16Bits : Nat → Instruction
  | Poseidon : Nat → Instruction
  deriving DecidableEq, Repr

/-- The witness-building environment of `witness.rs` (`struct Env`).
`G1` and `G2` are the group-element types of the two curves of the cycle
(external collaborators); a polynomial commitment (`PolyComm`) is a list
of group elements.  The setup fields (domains, SRS) are external and
never mutated after construction, so they are not carried; the SRS
blinder points and the curve zeros enter through `Env.new`'s arguments.
The sponge states are opaque external state, carried as `Nat` tokens. -/
structure Env (G1 G2 : Type) where
  ivc_accumulator_e1 : G1
  ivc_accumulator_e2 : G2
  previous_commitments_e1 : List (List G1)
  previous_commitments_e2 : List (List G2)
  idx_var : Nat
  idx_var_pi : Nat
  current_row : Nat
  state : List Nat
  public_state : List Nat
  current_instruction : Instruction
  sponge_e1 : Nat
  sponge_e2 : Nat
  current_iteration : Nat
  previous_hash : Nat × Nat
  r : Nat
  witness : List (List Nat)
  z0 : Nat
  zi : Nat
  deriving Repr

namespace Env

/-- `Env::allocate`: asserts `idx_var < NUMBER_OF_COLUMNS` (the capacity
`C`, passed explicitly since the constant lives outside `src/`), returns
`Column::X(idx_var)` and increments the cursor. -/
def allocate (C : Nat) (env : Env G1 G2) : Except RuntimeError (Column × Env G1 G2) :=
  if env.idx_var < C then
    .ok (Column.X env.idx_var, { env with idx_var := env.idx_var + 1 })
  else
    .error .capacityReached

/-- `Env::allocate_public_input`: asserts `idx_var_pi <
NUMBER_OF_PUBLIC_INPUTS` (the capacity `P`), returns
`Column::PublicInput(idx_var_pi)` and increments the cursor. -/
def allocate_public_input (P : Nat) (env : Env G1 G2) :
    Except RuntimeError (Column × Env G1 G2) :=
  if env.idx_var_pi < P then
    .ok (Column.PublicInput env.idx_var_pi, { env with idx_var_pi := env.idx_var_pi + 1 })
  else
    .error .capacityReached

/-- `Env::write_column`: only `Column::X` is accepted (`unimplemented!`
otherwise, modelled as a type-mismatch error); stores `v` in the private
row state and returns it. -/
def write_column (col : Column) (v : Nat) (env : Env G1 G2) :
    Except RuntimeError (Nat × Env G1 G2) :=
  match col with
  | Column.X idx => .ok (v, { env with state := env.state.set idx v })
  | _ => .error .typeMismatch

/-- `Env::write_public_input`: only `Column::PublicInput` is accepted
(`unimplemented!` otherwise); stores `v` in the public row state and
returns it. -/
def write_public_input (col : Column) (v : Nat) (env : Env G1 G2) :
    Except RuntimeError (Nat × Env G1 G2) :=
  match col with
  | Column.PublicInput idx => .ok (v, { env with public_state := env.public_state.set idx v })
  | _ => .error .typeMismatch

/-- The loop body of `Env::reset`: writes `state[i]` into
`witness[i][row]` for every `i`.  (If the witness has fewer columns than
the state the source panics; here the surplus is dropped, and the
theorems stay where lengths agree.) -/
def storeState : List Nat → Nat → List (List Nat) → List (List Nat)
  | [], _, w => w
  | _ :: _, _, [] => []
  | x :: xs, row, col :: cols => col.set row x :: storeState xs row cols

/-- `Env::reset` (the `advance_row` operation of the spec): appends the
private row state into the witness table at the current row, increments
the row index, zeroes both allocation cursors, and zeroes the private
row state. -/
def reset (env : Env G1 G2) : Env G1 G2 :=
  { env with
    witness := storeState env.state env.current_row env.witness
    current_row := env.current_row + 1
    idx_var := 0
    idx_var_pi := 0
    state := List.replicate env.state.length 0 }

/-- `Env::bitmask_be`: computes `diff = highest_bit - lowest_bit` in
`u32` (underflow aborts, modelled as an overflow error), asserts
`diff ≤ 16`, then returns `(x >> lowest_bit) & ((1 << diff) - 1)` and
writes it through `write_column` (so a non-private column is a
type-mismatch error). -/
def bitmask_be (x : Nat) (highest_bit lowest_bit : Nat) (col : Column)
    (env : Env G1 G2) : Except RuntimeError (Nat × Env G1 G2) :=
  if highest_bit < lowest_bit then
    .error .arithmeticOverflow
  else
    let diff := highest_bit - lowest_bit
    if diff ≤ 16 then
      let rht := 2 ^ diff - 1
      let lft := x >>> lowest_bit
      let res := lft &&& rht
      (write_column col res env).map fun p => (res, p.2)
    else
      .error .assertionFailed

/-- `Env::coin_folding_combiner`: squeezes a challenge from the sponge of
the active curve (even iteration → curve 1, odd → curve 2).  The sponge
itself is an external capability; the squeezed values and successor
sponge states are passed in (`c1`/`s1` for curve 1, `c2`/`s2` for curve
2).  The challenge is written into the private column (`unimplemented!`
on any other column kind) and recorded as the combiner `r`. -/
def coin_folding_combiner (c1 s1 c2 s2 : Nat) (col : Column) (env : Env G1 G2) :
    Except RuntimeError (Nat × Env G1 G2) :=
  let rv := if env.current_iteration % 2 = 0 then c1 else c2
  let env :=
    if env.current_iteration % 2 = 0 then { env with sponge_e1 := s1 }
    else { env with sponge_e2 := s2 }
  match col with
  | Column.X idx =>
      .ok (rv, { env with state := env.state.set idx rv, r := rv })
  | _ => .error .typeMismatch

/-- `Env::get_sixteen_bits_chunks_folding_combiner`: re-derives the
`i`-th 16-bit chunk of the stored combiner `r` through `bitmask_be`. -/
def get_sixteen_bits_chunks_folding_combiner (pos : Column) (i : Nat)
    (env : Env G1 G2) : Except RuntimeError (Nat × Env G1 G2) :=
  bitmask_be env.r (16 * (i + 1)) (16 * i) pos env

/-- `Env::new` (the witness-builder part): capacities `C`
(`NUMBER_OF_COLUMNS`) and `P` (`NUMBER_OF_PUBLIC_INPUTS`) are passed
explicitly since the constants live outside `src/`; `zeroE1`/`zeroE2`
are the curves' zero points and `h1`/`h2` the SRS blinder points `srs.h`
(external collaborators).  The witness table has `C` columns of
`2 ^ srs_log2_size` zeroed rows, and each previous-commitments vector
holds one blinder commitment per column. -/
def new (C P srs_log2_size : Nat) (z0 : Nat) (sponge_e1 sponge_e2 : Nat)
    (zeroE1 h1 : G1) (zeroE2 h2 : G2) : Env G1 G2 :=
  let srs_size := 2 ^ srs_log2_size
  { ivc_accumulator_e1 := zeroE1
    ivc_accumulator_e2 := zeroE2
    previous_commitments_e1 := (List.range C).map fun _ => [h1]
    previous_commitments_e2 := (List.range C).map fun _ => [h2]
    idx_var := 0
    idx_var_pi := 0
    current_row := 0
    state := List.replicate C 0
    public_state := List.replicate P 0
    current_instruction := Instruction.SixteenBitsDecomposition
    sponge_e1 := sponge_e1
    sponge_e2 := sponge_e2
    current_iteration := 0
    previous_hash := (0, 0)
    r := 0
    witness := List.replicate C (List.replicate srs_size 0)
    z0 := z0
    zi := z0 }

/-- `Env::reset_for_next_iteration`: sets the row index to 0, zeroes the
private row state, and zeroes `idx_var`.  (It does not touch
`idx_var_pi`.) -/
def reset_for_next_iteration (env : Env G1 G2) : Env G1 G2 :=
  { env with
    current_row := 0
    state := List.replicate env.state.length 0
    idx_var := 0 }

/-- `Env::compute_and_update_previous_commitments`: commits every witness
column through the external reduction+commitment service of the active
curve (even iteration → curve 1, odd → curve 2) and replaces that
curve's previous-commitments vector wholesale.  The per-column service
(field reduction followed by `commit_evaluations_non_hiding`) is the
external commitment boundary, passed as `commitE1`/`commitE2`; a
reduction failure is a fatal abort outside this core. -/
def compute_and_update_previous_commitments
    (commitE1 : List Nat → List G1) (commitE2 : List Nat → List G2)
    (env : Env G1 G2) : Env G1 G2 :=
  if env.current_iteration % 2 = 0 then
    { env with previous_commitments_e1 := env.witness.map commitE1 }
  else
    { env with previous_commitments_e2 := env.witness.map commitE2 }

/-- `Env::fetch_next_instruction`: the pure instruction transition
function (the source reads `current_instruction` and returns the
successor without storing it). -/
def fetch_next_instruction : Instruction → Instruction
  | Instruction.SixteenBitsDecomposition => Instruction.BitDecompositionFrom16Bits 0
  | Instruction.Poseidon i => Instruction.Poseidon (i + 1)
  | Instruction.BitDecompositionFrom16Bits i =>
      if i < 15 then Instruction.BitDecompositionFrom16Bits (i + 1)
      else Instruction.SixteenBitsDecomposition

end Env

/-- A small concrete environment used to instantiate theorems with
hypotheses: capacities `C = 3`, `P = 2`, domain size `2 ^ 2 = 4`. -/
def testEnv : Env Nat Nat := Env.new 3 2 2 7 11 13 0 1 0 1

/-- C5: starting from the initial instruction (`SixteenBitsDecomposition`)
and applying `fetch_next_instruction` exactly 17 times returns to the
initial instruction, with the chunk states visited in order
`BitDecompositionFrom16Bits 0` through `BitDecompositionFrom16Bits 15`
and the loop-closing edge taken from chunk 15. -/
theorem instruction_cycle :
    Env.fetch_next_instruction^[17] Instruction.SixteenBitsDecomposition
        = Instruction.SixteenBitsDecomposition ∧
    (∀ i, i < 16 →
      Env.fetch_next_instruction^[i + 1] Instruction.SixteenBitsDecomposition
          = Instruction.BitDecompositionFrom16Bits i) ∧
    Env.fetch_next_instruction (Instruction.BitDecompositionFrom16Bits 15)
        = Instruction.SixteenBitsDecomposition := by
  refine ⟨by decide, ?_, by decide⟩
  decide

/-- Instantiation of `instruction_cycle` at chunk index 2. -/
theorem instruction_cycle_witness :
    Env.fetch_next_instruction^[3] Instruction.SixteenBitsDecomposition
        = Instruction.BitDecompositionFrom16Bits 2 :=
  instruction_cycle.2.1 2 (by decide)

/-- C3: for `x < 2 ^ 128` and `lowest_bit < highest_bit ≤ lowest_bit + 16`,
`bitmask_be` returns `(x >>> lowest_bit) &&& (2 ^ (highest_bit - lowest_bit) - 1)`
and writes that value into the addressed private column; when the bit-width
difference exceeds 16 the operation fails. -/
theorem bitmask_be_correct :
    (∀ (env : Env Nat Nat) (x high low idx : Nat),
        x < 2 ^ 128 → low < high → high ≤ low + 16 → idx < env.state.length →
        Env.bitmask_be x high low (Column.X idx) env
          = .ok ((x >>> low) &&& (2 ^ (high - low) - 1),
              { env with state := env.state.set idx ((x >>> low) &&& (2 ^ (high - low) - 1)) })) ∧
    (∀ (env : Env Nat Nat) (x high low : Nat) (col : Column),
        low ≤ high → 16 < high - low →
        Env.bitmask_be x high low col env = .error .assertionFailed) := by
  constructor
  · intro env x high low idx _ hlt hle _
    have h1 : ¬ high < low := by omega
    have h2 : high - low ≤ 16 := by omega
    simp [Env.bitmask_be, h1, h2, Env.write_column, Except.map]
  · intro env x high low col _ hgt
    have h1 : ¬ high < low := by omega
    have h2 : ¬ high - low ≤ 16 := by omega
    simp [Env.bitmask_be, h1, h2]

/-- Instantiation of `bitmask_be_correct`: extracting bits [4, 8) of
43981 succeeds, and a 20-bit extraction fails. -/
theorem bitmask_be_correct_witness :
    Env.bitmask_be 43981 8 4 (Column.X 0) testEnv
      = .ok ((43981 >>> 4) &&& (2 ^ (8 - 4) - 1),
          { testEnv with state := testEnv.state.set 0 ((43981 >>> 4) &&& (2 ^ (8 - 4) - 1)) }) ∧
    Env.bitmask_be 5 20 0 (Column.X 0) testEnv = .error .assertionFailed :=
  ⟨bitmask_be_correct.1 testEnv 43981 8 4 0 (by decide) (by decide) (by decide) (by decide),
   bitmask_be_correct.2 testEnv 5 20 0 (Column.X 0) (by decide) (by decide)⟩

/-- C7: `write_column` stores into the private cell addressed by an
in-range `Column.X` and returns the value; `write_public_input` does the
same for `Column.PublicInput`; each write path signals a type-mismatch
error on the column kind it does not own. -/
theorem write_correct :
    (∀ (env : Env Nat Nat) (idx v : Nat), idx < env.state.length →
        Env.write_column (Column.X idx) v env
          = .ok (v, { env with state := env.state.set idx v })) ∧
    (∀ (env : Env Nat Nat) (idx v : Nat), idx < env.public_state.length →
        Env.write_public_input (Column.PublicInput idx) v env
          = .ok (v, { env with public_state := env.public_state.set idx v })) ∧
    (∀ (env : Env Nat Nat) (i v : Nat),
        Env.write_column (Column.PublicInput i) v env = .error .typeMismatch) ∧
    (∀ (env : Env Nat Nat) (i v : Nat),
        Env.write_public_input (Column.X i) v env = .error .typeMismatch) :=
  ⟨fun _ _ _ _ => rfl, fun _ _ _ _ => rfl, fun _ _ _ => rfl, fun _ _ _ => rfl⟩

/-- Instantiation of `write_correct` at `testEnv`. -/
theorem write_correct_witness :
    Env.write_column (Column.X 1) 42 testEnv
        = .ok (42, { testEnv with state := testEnv.state.set 1 42 }) ∧
    Env.write_public_input (Column.PublicInput 0) 9 testEnv
        = .ok (9, { testEnv with public_state := testEnv.public_state.set 0 9 }) :=
  ⟨write_correct.1 testEnv 1 42 (by decide),
   write_correct.2.1 testEnv 0 9 (by decide)⟩

/-- `n` consecutive calls to `Env::allocate`, collecting the returned
columns; the first failure aborts the run (errors propagate). -/
def Env.allocateN (C : Nat) : Nat → Env G1 G2 → Except RuntimeError (List Column × Env G1 G2)
  | 0, env => .ok ([], env)
  | n + 1, env =>
      match Env.allocate C env with
      | .ok (c, env') => (Env.allocateN C n env').map fun p => (c :: p.1, p.2)
      | .error e => .error e

theorem allocateN_ok (C : Nat) :
    ∀ (k j : Nat) (env : Env Nat Nat), env.idx_var = j → j + k ≤ C →
      Env.allocateN C k env
        = .ok ((List.range' j k).map Column.X, { env with idx_var := j + k }) := by
  intro k
  induction k with
  | zero =>
      intro j env hj _
      subst hj
      rfl
  | succ n ih =>
      intro j env hj hle
      have hjC : env.idx_var < C := by omega
      have step : Env.allocate C env
          = .ok (Column.X env.idx_var, { env with idx_var := env.idx_var + 1 }) := by
        simp [Env.allocate, hjC]
      have rec := ih (j + 1) { env with idx_var := env.idx_var + 1 } (by simp [hj]) (by omega)
      simp only [Env.allocateN, step, rec, Except.map, List.range'_succ, List.map_cons]
      subst hj
      have : env.idx_var + 1 + n = env.idx_var + (n + 1) := by omega
      simp [this]

theorem allocateN_overflow (C : Nat) :
    ∀ (k j : Nat) (env : Env Nat Nat), env.idx_var = j → j + k = C →
      Env.allocateN C (k + 1) env = .error .capacityReached := by
  intro k
  induction k with
  | zero =>
      intro j env hj hC
      have : ¬ env.idx_var < C := by omega
      simp [Env.allocateN, Env.allocate, this]
  | succ n ih =>
      intro j env hj hC
      have hjC : env.idx_var < C := by omega
      have step : Env.allocate C env
          = .ok (Column.X env.idx_var, { env with idx_var := env.idx_var + 1 }) := by
        simp [Env.allocate, hjC]
      have rec := ih (j + 1) { env with idx_var := env.idx_var + 1 } (by simp [hj]) (by omega)
      simp only [Env.allocateN, step, Except.map] at rec ⊢
      rw [rec]

/-- C8: within a single row (allocation cursor 0), `C` consecutive
`allocate` calls all succeed and return the private columns
`X 0 … X (C-1)` in order, and the `(C+1)`-th call fails with the
capacity error. -/
theorem column_capacity :
    ∀ (C : Nat) (env : Env Nat Nat), env.idx_var = 0 →
      Env.allocateN C C env
          = .ok ((List.range C).map Column.X, { env with idx_var := C }) ∧
      Env.allocateN C (C + 1) env = .error .capacityReached := by
  intro C env h0
  refine ⟨?_, allocateN_overflow C C 0 env h0 (by omega)⟩
  have := allocateN_ok C C 0 env h0 (by omega)
  simpa [List.range_eq_range'] using this

/-- Instantiation of `column_capacity` at `testEnv` (`C = 3`). -/
theorem column_capacity_witness :
    Env.allocateN 3 3 testEnv
        = .ok ((List.range 3).map Column.X, { testEnv with idx_var := 3 }) ∧
    Env.allocateN 3 4 testEnv = .error .capacityReached :=
  column_capacity 3 testEnv (by decide)

/-- C6 (counterexample): `reset_for_next_iteration` does not zero the
public-input allocation cursor `idx_var_pi` — from a state with
`idx_var_pi = 1` it still reads 1 afterwards, contradicting the claim
that both allocation cursors are zero. -/
theorem reset_for_next_iteration_pi_counterexample :
    (Env.reset_for_next_iteration { testEnv with idx_var_pi := 1 }).idx_var_pi ≠ 0 := by
  decide

/-- C6 (amended): after `reset_for_next_iteration`, the row index is 0,
every private row-state cell is zero, and the private allocation cursor
`idx_var` is zero; the public-input allocation cursor `idx_var_pi` is
left unchanged. -/
theorem reset_for_next_iteration_correct :
    ∀ (env : Env Nat Nat),
      (Env.reset_for_next_iteration env).current_row = 0 ∧
      (Env.reset_for_next_iteration env).state = List.replicate env.state.length 0 ∧
      (Env.reset_for_next_iteration env).idx_var = 0 ∧
      (Env.reset_for_next_iteration env).idx_var_pi = env.idx_var_pi :=
  fun _ => ⟨rfl, rfl, rfl, rfl⟩

/-- C9: `reset` (the `advance_row` operation) leaves the public-input row
state unchanged, and the new witness table is `storeState` of the
private row state alone — public-input cells are neither appended to
the table nor zeroed.  Consequently a value stored by
`write_public_input` is still present after the row is flushed. -/
theorem reset_public_state_frame :
    ∀ (env : Env Nat Nat),
      (Env.reset env).public_state = env.public_state ∧
      (Env.reset env).witness = Env.storeState env.state env.current_row env.witness ∧
      (∀ (idx v : Nat) (env' : Env Nat Nat),
        Env.write_public_input (Column.PublicInput idx) v env = .ok (v, env') →
        (Env.reset env').public_state = env.public_state.set idx v) := by
  intro env
  refine ⟨rfl, rfl, ?_⟩
  intro idx v env' h
  simp only [Env.write_public_input, Except.ok.injEq, Prod.mk.injEq, true_and] at h
  subst h
  rfl

/-- Instantiation of `reset_public_state_frame`: a public input written
at `testEnv` survives the row flush. -/
theorem reset_public_state_frame_witness :
    (Env.reset { testEnv with public_state := testEnv.public_state.set 1 5 }).public_state
      = testEnv.public_state.set 1 5 :=
  (reset_public_state_frame testEnv).2.2 1 5
    { testEnv with public_state := testEnv.public_state.set 1 5 } rfl

/-- C2: `compute_and_update_previous_commitments` commits on curve 1 when
the iteration counter is even and on curve 2 otherwise, replacing only
the active curve's previous-commitments vector (one commitment per
witness column, i.e. a `map` over the witness columns) and leaving the
other curve's previous-commitments vector and every other field of the
environment unchanged. -/
theorem curve_alternation_frame :
    ∀ (env : Env Nat Nat) (commitE1 commitE2 : List Nat → List Nat),
      (env.current_iteration % 2 = 0 →
        (Env.compute_and_update_previous_commitments commitE1 commitE2 env).previous_commitments_e1
            = env.witness.map commitE1 ∧
        (Env.compute_and_update_previous_commitments commitE1 commitE2 env).previous_commitments_e2
            = env.previous_commitments_e2) ∧
      (env.current_iteration % 2 ≠ 0 →
        (Env.compute_and_update_previous_commitments commitE1 commitE2 env).previous_commitments_e2
            = env.witness.map commitE2 ∧
        (Env.compute_and_update_previous_commitments commitE1 commitE2 env).previous_commitments_e1
            = env.previous_commitments_e1) ∧
      (Env.compute_and_update_previous_commitments commitE1 commitE2 env).ivc_accumulator_e1
          = env.ivc_accumulator_e1 ∧
      (Env.compute_and_update_previous_commitments commitE1 commitE2 env).ivc_accumulator_e2
          = env.ivc_accumulator_e2 ∧
      (Env.compute_and_update_previous_commitments commitE1 commitE2 env).idx_var = env.idx_var ∧
      (Env.compute_and_update_previous_commitments commitE1 commitE2 env).idx_var_pi
          = env.idx_var_pi ∧
      (Env.compute_and_update_previous_commitments commitE1 commitE2 env).current_row
          = env.current_row ∧
      (Env.compute_and_update_previous_commitments commitE1 commitE2 env).state = env.state ∧
      (Env.compute_and_update_previous_commitments commitE1 commitE2 env).public_state
          = env.public_state ∧
      (Env.compute_and_update_previous_commitments commitE1 commitE2 env).current_instruction
          = env.current_instruction ∧
      (Env.compute_and_update_previous_commitments commitE1 commitE2 env).sponge_e1
          = env.sponge_e1 ∧
      (Env.compute_and_update_previous_commitments commitE1 commitE2 env).sponge_e2
          = env.sponge_e2 ∧
      (Env.compute_and_update_previous_commitments commitE1 commitE2 env).current_iteration
          = env.current_iteration ∧
      (Env.compute_and_update_previous_commitments commitE1 commitE2 env).previous_hash
          = env.previous_hash ∧
      (Env.compute_and_update_previous_commitments commitE1 commitE2 env).r = env.r ∧
      (Env.compute_and_update_previous_commitments commitE1 commitE2 env).witness = env.witness ∧
      (Env.compute_and_update_previous_commitments commitE1 commitE2 env).z0 = env.z0 ∧
      (Env.compute_and_update_previous_commitments commitE1 commitE2 env).zi = env.zi := by
  intro env commitE1 commitE2
  by_cases h : env.current_iteration % 2 = 0 <;>
    simp [Env.compute_and_update_previous_commitments, h]

/-- Instantiation of `curve_alternation_frame` at iterations 0 and 1. -/
theorem curve_alternation_frame_witness :
    ((Env.compute_and_update_previous_commitments List.reverse List.reverse
        testEnv).previous_commitments_e1 = testEnv.witness.map List.reverse ∧
      (Env.compute_and_update_previous_commitments List.reverse List.reverse
        testEnv).previous_commitments_e2 = testEnv.previous_commitments_e2) ∧
    ((Env.compute_and_update_previous_commitments List.reverse List.reverse
        { testEnv with current_iteration := 1 }).previous_commitments_e2
          = testEnv.witness.map List.reverse ∧
      (Env.compute_and_update_previous_commitments List.reverse List.reverse
        { testEnv with current_iteration := 1 }).previous_commitments_e1
          = testEnv.previous_commitments_e1) :=
  ⟨(curve_alternation_frame testEnv List.reverse List.reverse).1 (by decide),
   (curve_alternation_frame { testEnv with current_iteration := 1 }
      List.reverse List.reverse).2.1 (by decide)⟩

/-- C10: `Env.new` initializes both previous-commitments vectors with one
blinder commitment per witness column (length `C`, the number of
witness-table columns), and `compute_and_update_previous_commitments`
preserves the invariant that both vectors and the witness table all
have `C` entries. -/
theorem previous_commitments_length_invariant :
    ∀ (C : Nat),
      (∀ (P s z se1 se2 zE1 h1 zE2 h2 : Nat),
        (Env.new C P s z se1 se2 zE1 h1 zE2 h2 : Env Nat Nat).previous_commitments_e1.length
            = C ∧
        (Env.new C P s z se1 se2 zE1 h1 zE2 h2 : Env Nat Nat).previous_commitments_e2.length
            = C ∧
        (Env.new C P s z se1 se2 zE1 h1 zE2 h2 : Env Nat Nat).witness.length = C) ∧
      (∀ (env : Env Nat Nat) (commitE1 commitE2 : List Nat → List Nat),
        env.previous_commitments_e1.length = C →
        env.previous_commitments_e2.length = C →
        env.witness.length = C →
        (Env.compute_and_update_previous_commitments commitE1 commitE2
            env).previous_commitments_e1.length = C ∧
        (Env.compute_and_update_previous_commitments commitE1 commitE2
            env).previous_commitments_e2.length = C ∧
        (Env.compute_and_update_previous_commitments commitE1 commitE2
            env).witness.length = C) := by
  intro C
  constructor
  · intro P s z se1 se2 zE1 h1 zE2 h2
    refine ⟨?_, ?_, ?_⟩ <;> simp [Env.new]
  · intro env commitE1 commitE2 h1 h2 hw
    by_cases h : env.current_iteration % 2 = 0 <;>
      simp [Env.compute_and_update_previous_commitments, h, h1, h2, hw]

/-- Instantiation of `previous_commitments_length_invariant` at `C = 3`
(`testEnv`'s capacity). -/
theorem previous_commitments_length_invariant_witness :
    (Env.compute_and_update_previous_commitments List.reverse List.reverse
        testEnv).previous_commitments_e1.length = 3 ∧
    (Env.compute_and_update_previous_commitments List.reverse List.reverse
        testEnv).previous_commitments_e2.length = 3 ∧
    (Env.compute_and_update_previous_commitments List.reverse List.reverse
        testEnv).witness.length = 3 :=
  (previous_commitments_length_invariant 3).2 testEnv List.reverse List.reverse
    (by decide) (by decide) (by decide)

theorem base_digit_sum (k r : Nat) :
    ∑ i ∈ Finset.range k, r / (2 ^ 16) ^ i % 2 ^ 16 * (2 ^ 16) ^ i
      = r % (2 ^ 16) ^ k := by
  induction k with
  | zero => simp [Nat.mod_one]
  | succ n ih =>
      rw [Finset.sum_range_succ, ih]
      conv_rhs => rw [Nat.mod_pow_succ]
      ring

theorem combiner_chunk_eq_digit (r i : Nat) :
    (r >>> (16 * i)) &&& (2 ^ 16 - 1) = r / (2 ^ 16) ^ i % 2 ^ 16 := by
  rw [Nat.shiftRight_eq_div_pow, Nat.and_pow_two_sub_one_eq_mod, pow_mul]

/-- C4: when `coin_folding_combiner` stores a combiner value `rv` with
`rv < 2 ^ (16 * k)`, the environment records `r := rv`; every chunk
extraction `get_sixteen_bits_chunks_folding_combiner _ i` then returns
bits `[16 i, 16 (i + 1))` of `rv`, and reassembling the `k` chunks by
little-to-big concatenation (`∑ chunk i * 2 ^ (16 i)`) reproduces `rv`
exactly. -/
theorem chunked_combiner_round_trip :
    ∀ (k : Nat) (env env₁ : Env Nat Nat) (c1 s1 c2 s2 idx rv : Nat),
      Env.coin_folding_combiner c1 s1 c2 s2 (Column.X idx) env = .ok (rv, env₁) →
      rv < 2 ^ (16 * k) →
      env₁.r = rv ∧
      (∀ i, (Env.get_sixteen_bits_chunks_folding_combiner (Column.X idx) i
          env₁).toOption.map Prod.fst = some ((rv >>> (16 * i)) &&& (2 ^ 16 - 1))) ∧
      ∑ i ∈ Finset.range k, ((rv >>> (16 * i)) &&& (2 ^ 16 - 1)) * 2 ^ (16 * i) = rv := by
  intro k env env₁ c1 s1 c2 s2 idx rv hok hlt
  have hr : env₁.r = rv := by
    by_cases h : env.current_iteration % 2 = 0 <;>
      simp only [Env.coin_folding_combiner, h, if_pos, if_neg, ite_true, ite_false,
        Except.ok.injEq, Prod.mk.injEq] at hok <;>
      simp [← hok.2, hok.1]
  refine ⟨hr, ?_, ?_⟩
  · intro i
    have hbits : ¬ 16 * (i + 1) < 16 * i := by omega
    have hdiff : 16 * (i + 1) - 16 * i ≤ 16 := by omega
    have hd16 : 16 * (i + 1) - 16 * i = 16 := by omega
    simp [Env.get_sixteen_bits_chunks_folding_combiner, Env.bitmask_be, hbits, hdiff,
      Env.write_column, Except.map, Except.toOption, hd16, hr]
  · have hconv : ∀ i, ((rv >>> (16 * i)) &&& (2 ^ 16 - 1)) * 2 ^ (16 * i)
        = rv / (2 ^ 16) ^ i % 2 ^ 16 * (2 ^ 16) ^ i := by
      intro i
      rw [combiner_chunk_eq_digit, pow_mul]
    calc ∑ i ∈ Finset.range k, ((rv >>> (16 * i)) &&& (2 ^ 16 - 1)) * 2 ^ (16 * i)
        = ∑ i ∈ Finset.range k, rv / (2 ^ 16) ^ i % 2 ^ 16 * (2 ^ 16) ^ i :=
          Finset.sum_congr rfl fun i _ => hconv i
      _ = rv % (2 ^ 16) ^ k := base_digit_sum k rv
      _ = rv := Nat.mod_eq_of_lt (by rwa [← pow_mul])

/-- The environment produced by squeezing the combiner `369607` into
column 0 of `testEnv` at iteration 0. -/
def combinerEnv : Env Nat Nat :=
  { testEnv with
      sponge_e1 := 99
      state := testEnv.state.set 0 369607
      r := 369607 }

/-- Instantiation of `chunked_combiner_round_trip`: a two-chunk combiner
(`rv = 0x5A3C7` squeezed at iteration 0) round-trips through the 16-bit
chunk extraction. -/
theorem chunked_combiner_round_trip_witness :
    ((Env.coin_folding_combiner 369607 99 0 0 (Column.X 0) testEnv).toOption.map
        Prod.fst = some 369607) ∧
    ∑ i ∈ Finset.range 2, ((369607 >>> (16 * i)) &&& (2 ^ 16 - 1)) * 2 ^ (16 * i)
        = 369607 := by
  have hok : Env.coin_folding_combiner 369607 99 0 0 (Column.X 0) testEnv
      = .ok (369607, combinerEnv) := rfl
  exact ⟨by rw [hok]; rfl,
    (chunked_combiner_round_trip 2 testEnv combinerEnv
      369607 99 0 0 0 369607 hok (by norm_num)).2.2⟩

theorem getD_set_ne (l : List α) (n m : Nat) (v d : α) (h : n ≠ m) :
    (l.set n v).getD m d = l.getD m d := by
  simp [List.getD, List.getElem?_set_ne h]

theorem getD_set_self (l : List α) (n : Nat) (v d : α) (h : n < l.length) :
    (l.set n v).getD n d = v := by
  simp [List.getD, List.getElem?_set_self h]

theorem getD_eq_getElem (l : List α) (n : Nat) (d : α) (h : n < l.length) :
    l.getD n d = l[n] := by
  simp [List.getD, List.getElem?_eq_getElem h]

theorem storeState_length (st : List Nat) (row : Nat) :
    ∀ w : List (List Nat), (Env.storeState st row w).length = w.length := by
  induction st with
  | nil => intro w; rfl
  | cons x xs ih =>
      intro w
      cases w with
      | nil => rfl
      | cons c cs => simp [Env.storeState, ih]

theorem storeState_getD (st : List Nat) (row : Nat) :
    ∀ (w : List (List Nat)) (i : Nat),
      (Env.storeState st row w).getD i []
        = if i < st.length ∧ i < w.length
          then (w.getD i []).set row (st.getD i 0)
          else w.getD i [] := by
  induction st with
  | nil => intro w i; simp [Env.storeState]
  | cons x xs ih =>
      intro w i
      cases w with
      | nil => simp [Env.storeState]
      | cons c cs =>
          cases i with
          | zero => simp [Env.storeState]
          | succ n =>
              have hred : Env.storeState (x :: xs) row (c :: cs)
                  = c.set row x :: Env.storeState xs row cs := rfl
              rw [hred]
              simp only [List.getD_cons_succ, List.length_cons, Nat.succ_lt_succ_iff]
              exact ih cs n

/-- One spec-level row step: overwrite the private row state with the
values `snap` written for this row, then flush it with `reset`
(`advance_row`).  Any sequence of `write_column` calls for a row amounts
to some such `snap` at the moment `reset` is called. -/
def writeRowThenAdvance (snap : List Nat) (env : Env G1 G2) : Env G1 G2 :=
  Env.reset { env with state := snap }

/-- Iterate `writeRowThenAdvance` over a list of row snapshots: one
`advance_row` call per snapshot. -/
def buildRows (snaps : List (List Nat)) (env : Env G1 G2) : Env G1 G2 :=
  snaps.foldl (fun e s => writeRowThenAdvance s e) env

theorem buildRows_append (a b : List (List Nat)) (env : Env G1 G2) :
    buildRows (a ++ b) env = buildRows b (buildRows a env) := by
  simp [buildRows, List.foldl_append]

theorem buildRows_current_row (snaps : List (List Nat)) :
    ∀ env : Env G1 G2, (buildRows snaps env).current_row
        = env.current_row + snaps.length := by
  induction snaps with
  | nil => intro env; rfl
  | cons s ss ih =>
      intro env
      have hc : buildRows (s :: ss) env = buildRows ss (writeRowThenAdvance s env) := rfl
      rw [hc, ih]
      have hw : (writeRowThenAdvance s env).current_row = env.current_row + 1 := rfl
      rw [hw, List.length_cons]
      omega

theorem buildRows_witness_length (snaps : List (List Nat)) :
    ∀ env : Env G1 G2, (buildRows snaps env).witness.length = env.witness.length := by
  induction snaps with
  | nil => intro env; rfl
  | cons s ss ih =>
      intro env
      have hc : buildRows (s :: ss) env = buildRows ss (writeRowThenAdvance s env) := rfl
      rw [hc, ih]
      exact storeState_length s env.current_row env.witness

theorem buildRows_col_length (snaps : List (List Nat)) :
    ∀ (env : Env G1 G2) (i : Nat),
      ((buildRows snaps env).witness.getD i []).length
        = (env.witness.getD i []).length := by
  induction snaps with
  | nil => intro env i; rfl
  | cons s ss ih =>
      intro env i
      have hc : buildRows (s :: ss) env = buildRows ss (writeRowThenAdvance s env) := rfl
      rw [hc, ih]
      show ((Env.storeState s env.current_row env.witness).getD i []).length
          = (env.witness.getD i []).length
      rw [storeState_getD]
      split
      · exact List.length_set ..
      · rfl

theorem buildRows_preserves_row (snaps : List (List Nat)) :
    ∀ (env : Env G1 G2) (i row : Nat), row < env.current_row →
      ((buildRows snaps env).witness.getD i []).getD row 0
        = (env.witness.getD i []).getD row 0 := by
  induction snaps with
  | nil => intro env i row _; rfl
  | cons s ss ih =>
      intro env i row hrow
      have hc : buildRows (s :: ss) env = buildRows ss (writeRowThenAdvance s env) := rfl
      have hcr : (writeRowThenAdvance s env).current_row = env.current_row + 1 := rfl
      rw [hc, ih _ i row (by omega)]
      show ((Env.storeState s env.current_row env.witness).getD i []).getD row 0
          = (env.witness.getD i []).getD row 0
      rw [storeState_getD]
      split
      · exact getD_set_ne _ _ _ _ _ (by omega)
      · rfl

theorem reset_cell_self (env : Env G1 G2) (i : Nat)
    (hi : i < env.state.length) (hiw : i < env.witness.length)
    (hrow : env.current_row < (env.witness.getD i []).length) :
    ((Env.reset env).witness.getD i []).getD env.current_row 0
      = env.state.getD i 0 := by
  show ((Env.storeState env.state env.current_row env.witness).getD i []).getD
      env.current_row 0 = env.state.getD i 0
  rw [storeState_getD, if_pos ⟨hi, hiw⟩]
  exact getD_set_self _ _ _ _ hrow

/-- C1: starting from a fresh builder (row index 0, `C` witness columns
of `domain` rows each), running `r + 1` rows — each row writing its
snapshot of `C` values into the row state and then calling `reset`
(`advance_row`) — leaves the `r`-th witness-table row holding exactly
the values written before the `r`-th `advance_row` call, the row index
incremented to `r + 1`, both allocation cursors at 0, and every private
row-state cell zeroed. -/
theorem row_completeness :
    ∀ (env₀ : Env Nat Nat) (snaps : List (List Nat)) (C domain r : Nat),
      env₀.current_row = 0 →
      env₀.witness.length = C →
      (∀ col ∈ env₀.witness, col.length = domain) →
      (∀ s ∈ snaps, s.length = C) →
      snaps.length ≤ domain →
      r < snaps.length →
      (buildRows (snaps.take (r + 1)) env₀).current_row = r + 1 ∧
      (buildRows (snaps.take (r + 1)) env₀).idx_var = 0 ∧
      (buildRows (snaps.take (r + 1)) env₀).idx_var_pi = 0 ∧
      (buildRows (snaps.take (r + 1)) env₀).state = List.replicate C 0 ∧
      (∀ i, i < C →
        ((buildRows (snaps.take (r + 1)) env₀).witness.getD i []).getD r 0
          = (snaps.getD r []).getD i 0) := by
  intro env₀ snaps C domain r h0 hlen hcols hsnaps hdom hr
  have hsr : snaps.getD r [] = snaps[r] := getD_eq_getElem snaps r [] hr
  have hsrC : (snaps.getD r []).length = C := by
    rw [hsr]; exact hsnaps _ (List.getElem_mem hr)
  have htake : snaps.take (r + 1) = snaps.take r ++ [snaps.getD r []] := by
    rw [List.take_succ, List.getElem?_eq_getElem hr, hsr]
    rfl
  have hsplit : buildRows (snaps.take (r + 1)) env₀
      = writeRowThenAdvance (snaps.getD r []) (buildRows (snaps.take r) env₀) := by
    rw [htake, buildRows_append]
    rfl
  have htlen : (snaps.take r).length = r := by
    rw [List.length_take]
    omega
  have hcrA : (buildRows (snaps.take r) env₀).current_row = r := by
    rw [buildRows_current_row, h0, htlen]
    omega
  have hwlA : (buildRows (snaps.take r) env₀).witness.length = C := by
    rw [buildRows_witness_length, hlen]
  refine ⟨?_, ?_, ?_, ?_, ?_⟩
  · rw [hsplit]
    show (buildRows (snaps.take r) env₀).current_row + 1 = r + 1
    rw [hcrA]
  · rw [hsplit]; rfl
  · rw [hsplit]; rfl
  · rw [hsplit]
    show List.replicate (snaps.getD r []).length 0 = List.replicate C 0
    rw [hsrC]
  · intro i hi
    rw [hsplit]
    have hcolA : ((buildRows (snaps.take r) env₀).witness.getD i []).length = domain := by
      rw [buildRows_col_length]
      rw [getD_eq_getElem env₀.witness i [] (by omega)]
      exact hcols _ (List.getElem_mem (by omega))
    have hcell := reset_cell_self
      ({ buildRows (snaps.take r) env₀ with state := snaps.getD r [] } : Env Nat Nat) i
      (by show i < (snaps.getD r []).length; rw [hsrC]; exact hi)
      (by show i < (buildRows (snaps.take r) env₀).witness.length; rw [hwlA]; exact hi)
      (by show (buildRows (snaps.take r) env₀).current_row
            < ((buildRows (snaps.take r) env₀).witness.getD i []).length
          rw [hcrA, hcolA]
          omega)
    simpa [writeRowThenAdvance, hcrA] using hcell

/-- A fresh builder with `C = 2` columns, `P = 1` public input and
domain size `2 ^ 1 = 2`, used to instantiate `row_completeness`. -/
def rowEnv : Env Nat Nat := Env.new 2 1 1 0 0 0 0 1 0 1

/-- Instantiation of `row_completeness`: two rows `[5, 6]` and `[7, 8]`
flushed into `rowEnv`; after the second `advance_row` call row 1 holds
the second snapshot, the row index is 2, the cursors are 0 and the row
state is zeroed. -/
theorem row_completeness_witness :
    (buildRows (([[5, 6], [7, 8]] : List (List Nat)).take 2) rowEnv).current_row = 2 ∧
    (buildRows (([[5, 6], [7, 8]] : List (List Nat)).take 2) rowEnv).idx_var = 0 ∧
    (buildRows (([[5, 6], [7, 8]] : List (List Nat)).take 2) rowEnv).idx_var_pi = 0 ∧
    (buildRows (([[5, 6], [7, 8]] : List (List Nat)).take 2) rowEnv).state
        = List.replicate 2 0 ∧
    ((buildRows (([[5, 6], [7, 8]] : List (List Nat)).take 2) rowEnv).witness.getD
        0 []).getD 1 0 = 7 := by
  have h := row_completeness rowEnv [[5, 6], [7, 8]] 2 2 1 rfl (by decide) (by decide)
    (by decide) (by decide) (by decide)
  exact ⟨h.1, h.2.1, h.2.2.1, h.2.2.2.1, h.2.2.2.2 0 (by decide)⟩

end Arrabiata
